import Mathlib

/-!
Verification of the real-time interaction core of the `pixelgram` server
(`src/server.ts`): the social-graph follow state machine, the notification
fan-out, the presence registry (`onlineUsers`), and the message delivery
engine (`send_message`).  Each definition is a shallow embedding of the
corresponding route handler or socket handler; SQL tables become Lean lists,
the SQLite primary-key / unique-constraint violations that the code uses as
control flow (`try { INSERT } catch { DELETE }`) become explicit existence
checks, and socket emissions become an explicit event list.
-/

namespace Pixelgram

/-- The `status` column of the `follows` table: `'pending'` or `'accepted'`. -/
inductive FStatus where
  | pending
  | accepted
deriving DecidableEq, Repr

/-- The `type` column of the `notifications` table. -/
inductive NKind where
  | like
  | comment
  | follow
  | follow_request
deriving DecidableEq, Repr

/-- A row of the `users` table (the columns the core reads). -/
structure UserRow where
  id : Nat
  is_private : Bool
deriving DecidableEq, Repr

/-- A row of the `follows` table; `PRIMARY KEY (follower_id, following_id)`. -/
structure FollowRow where
  follower_id : Nat
  following_id : Nat
  status : FStatus
deriving DecidableEq, Repr

/-- A row of the `notifications` table. -/
structure NotifRow where
  user_id : Nat
  actor_id : Nat
  ntype : NKind
  post_id : Option Nat
  is_read : Bool
  created_at : Nat
deriving DecidableEq, Repr

/-- A row of the `posts` table (the columns the core reads). -/
structure PostRow where
  id : Nat
  user_id : Nat
deriving DecidableEq, Repr

/-- A row of the `likes` table; `UNIQUE (post_id, user_id)`. -/
structure LikeRow where
  post_id : Nat
  user_id : Nat
deriving DecidableEq, Repr

/-- A row of the `messages` table (timestamp columns elided: no claim reads
them). -/
structure MessageRow where
  id : Nat
  sender_id : Nat
  receiver_id : Nat
  content : String
deriving DecidableEq, Repr

/-- The relational store.  `nextMessageId` models SQLite `AUTOINCREMENT` /
`lastInsertRowid` for `messages`; `clock` models `CURRENT_TIMESTAMP` for the
`created_at` of rows inserted during one request. -/
structure DB where
  users : List UserRow
  posts : List PostRow
  follows : List FollowRow
  likes : List LikeRow
  messages : List MessageRow
  notifications : List NotifRow
  nextMessageId : Nat
  clock : Nat
deriving DecidableEq, Repr

/-- `SELECT ... FROM users WHERE id = ?` (`.get` returns the first row or
`undefined`). -/
def selectUser (db : DB) (uid : Nat) : Option UserRow :=
  db.users.find? (fun u => decide (u.id = uid))

/-- `INSERT INTO notifications (user_id, actor_id, type, post_id) VALUES ...`;
`is_read` defaults to 0, `created_at` to `CURRENT_TIMESTAMP`. -/
def insertNotification (db : DB) (user_id actor_id : Nat) (k : NKind)
    (post_id : Option Nat) : DB :=
  { db with notifications :=
      db.notifications ++ [⟨user_id, actor_id, k, post_id, false, db.clock⟩] }

/-- Whether a `follows` row with this `(follower_id, following_id)` pair
exists — the condition under which the `INSERT INTO follows` of the toggle
violates the primary key. -/
def edgeExists (db : DB) (follower following : Nat) : Bool :=
  db.follows.any (fun f => decide (f.follower_id = follower ∧ f.following_id = following))

/-- `DELETE FROM follows WHERE follower_id = ? AND following_id = ?`. -/
def deleteFollow (db : DB) (follower following : Nat) : DB :=
  let fs := db.follows.filter
    (fun f => !(decide (f.follower_id = follower ∧ f.following_id = following)))
  { db with follows := fs }

/-- The JSON `status` field answered by `POST /api/follow`. -/
inductive FollowResp where
  | pending
  | accepted
  | unfollowed
deriving DecidableEq, Repr

/-- `POST /api/follow` (`src/server.ts` lines 269–286).  Reads the followee's
privacy flag (`none` models the uncaught exception thrown by
`targetUser.is_private` when no such user exists), then tries
`INSERT INTO follows`; a primary-key violation is caught and turned into a
`DELETE` answered with `'unfollowed'`; a successful insert is followed by a
`follow_request` or `follow` notification to the followee and answered with
the new status.  There is no follower = followee check in the code. -/
def postFollow (db : DB) (follower_id following_id : Nat) :
    Option (DB × FollowResp) :=
  match selectUser db following_id with
  | none => none
  | some targetUser =>
    let status : FStatus := if targetUser.is_private then .pending else .accepted
    if edgeExists db follower_id following_id then
      some (deleteFollow db follower_id following_id, .unfollowed)
    else
      let db1 : DB := { db with follows := db.follows ++ [⟨follower_id, following_id, status⟩] }
      match status with
      | .pending =>
          some (insertNotification db1 following_id follower_id .follow_request none, .pending)
      | .accepted =>
          some (insertNotification db1 following_id follower_id .follow none, .accepted)

/-- The `action` field of `POST /api/follows/respond`. -/
inductive RespondAction where
  | accept
  | reject
deriving DecidableEq, Repr

/-- `POST /api/follows/respond` (`src/server.ts` lines 365–374).  `accept`
runs `UPDATE follows SET status = 'accepted' WHERE follower_id = ? AND
following_id = ?` and then unconditionally inserts a `follow` notification
whose recipient is the follower and whose actor is the followee; anything
else deletes the edge. -/
def postRespond (db : DB) (follower_id following_id : Nat)
    (action : RespondAction) : DB :=
  match action with
  | .accept =>
      let fs := db.follows.map (fun f =>
        if f.follower_id = follower_id ∧ f.following_id = following_id then
          { f with status := FStatus.accepted }
        else f)
      insertNotification { db with follows := fs } follower_id following_id .follow none
  | .reject => deleteFollow db follower_id following_id

/-- `POST /api/posts/:id/like` (`src/server.ts` lines 289–303): a unique-key
violation on `(post_id, user_id)` is caught and turned into a `DELETE`
answered `liked: false`; a fresh insert notifies the post owner only when
the owner differs from the liker, and answers `liked: true`. -/
def postLike (db : DB) (post_id user_id : Nat) : DB × Bool :=
  if db.likes.any (fun l => decide (l.post_id = post_id ∧ l.user_id = user_id)) then
    let ls := db.likes.filter (fun l => !(decide (l.post_id = post_id ∧ l.user_id = user_id)))
    ({ db with likes := ls }, false)
  else
    let db1 : DB := { db with likes := db.likes ++ [⟨post_id, user_id⟩] }
    match db.posts.find? (fun p => decide (p.id = post_id)) with
    | some post =>
        if post.user_id ≠ user_id then
          (insertNotification db1 post.user_id user_id .like (some post_id), true)
        else (db1, true)
    | none => (db1, true)

/-- `IsFollowing(follower, followee)`: an accepted edge exists — the
`status = 'accepted'` condition of the followers-count and feed queries
(`src/server.ts` lines 189–190, 240). -/
def isFollowing (db : DB) (follower following : Nat) : Bool :=
  db.follows.any (fun f =>
    decide (f.follower_id = follower ∧ f.following_id = following ∧ f.status = .accepted))

/-- Notification count of recipient `r`: `COUNT(*) FROM notifications WHERE
user_id = r`. -/
def notifCount (db : DB) (r : Nat) : Nat :=
  (db.notifications.filter (fun n => decide (n.user_id = r))).length

/-- Unfolding `POST /api/follow` on a fresh pair with a public followee:
insert an `accepted` edge, notify the followee, answer `accepted`. -/
theorem postFollow_insert_public (db : DB) (a b : Nat) (u : UserRow)
    (hu : selectUser db b = some u) (hpub : u.is_private = false)
    (hno : edgeExists db a b = false) :
    postFollow db a b = some
      ({ db with
          follows := db.follows ++ [⟨a, b, FStatus.accepted⟩],
          notifications := db.notifications ++ [⟨b, a, NKind.follow, none, false, db.clock⟩] },
       FollowResp.accepted) := by
  simp [postFollow, hu, hpub, hno, insertNotification]

/-- Unfolding `POST /api/follow` on a fresh pair with a private followee:
insert a `pending` edge, notify the followee, answer `pending`. -/
theorem postFollow_insert_private (db : DB) (a b : Nat) (u : UserRow)
    (hu : selectUser db b = some u) (hpriv : u.is_private = true)
    (hno : edgeExists db a b = false) :
    postFollow db a b = some
      ({ db with
          follows := db.follows ++ [⟨a, b, FStatus.pending⟩],
          notifications := db.notifications ++ [⟨b, a, NKind.follow_request, none, false, db.clock⟩] },
       FollowResp.pending) := by
  simp [postFollow, hu, hpriv, hno, insertNotification]

/-- Unfolding `POST /api/follow` when the pair already has an edge: the
insert hits the primary key, the catch deletes, the answer is `unfollowed`. -/
theorem postFollow_toggle_off (db : DB) (a b : Nat) (u : UserRow)
    (hu : selectUser db b = some u) (hyes : edgeExists db a b = true) :
    postFollow db a b = some (deleteFollow db a b, FollowResp.unfollowed) := by
  simp [postFollow, hu, hyes]

/-- An accepted `(a, b)` edge in the table makes `isFollowing` true. -/
theorem isFollowing_of_mem (db : DB) (a b : Nat)
    (h : FollowRow.mk a b FStatus.accepted ∈ db.follows) :
    isFollowing db a b = true := by
  simp only [isFollowing, List.any_eq_true, decide_eq_true_eq]
  exact ⟨_, h, rfl, rfl, rfl⟩

/-- Any `(a, b)` edge in the table makes `edgeExists` true. -/
theorem edgeExists_of_mem (db : DB) (a b : Nat) (s : FStatus)
    (h : FollowRow.mk a b s ∈ db.follows) :
    edgeExists db a b = true := by
  simp only [edgeExists, List.any_eq_true, decide_eq_true_eq]
  exact ⟨_, h, rfl, rfl⟩

/-- After `deleteFollow db a b` no `(a, b)` row survives, so `isFollowing`
is false. -/
theorem isFollowing_deleteFollow (db : DB) (a b : Nat) :
    isFollowing (deleteFollow db a b) a b = false := by
  simp only [isFollowing, deleteFollow, List.any_eq_false]
  intro f hf
  rw [List.mem_filter] at hf
  simp only [Bool.not_eq_eq_eq_not, Bool.not_true, decide_eq_false_iff_not,
    decide_eq_true_eq] at hf ⊢
  rcases hf with ⟨_, hnp⟩
  intro hc
  exact hnp ⟨hc.1, hc.2.1⟩

/-- C1. For accounts `a ≠ b`, `b` public, with no existing `(a, b)` edge: the
first follow-toggle creates an `accepted` edge, answers `accepted`, and makes
`IsFollowing(a,b)` true; the second call deletes the edge, answers
`unfollowed`, and makes `IsFollowing(a,b)` false. -/
theorem follow_toggle_public (db : DB) (a b : Nat) (u : UserRow)
    (hab : a ≠ b)
    (hu : selectUser db b = some u) (hpub : u.is_private = false)
    (hno : edgeExists db a b = false) :
    ∃ db1 db2 : DB,
      postFollow db a b = some (db1, .accepted) ∧
      db1.follows = db.follows ++ [⟨a, b, .accepted⟩] ∧
      isFollowing db1 a b = true ∧
      postFollow db1 a b = some (db2, .unfollowed) ∧
      isFollowing db2 a b = false := by
  obtain ⟨db1, h1, husers, hfol⟩ :
      ∃ db1, postFollow db a b = some (db1, FollowResp.accepted) ∧
        db1.users = db.users ∧
        db1.follows = db.follows ++ [⟨a, b, FStatus.accepted⟩] :=
    ⟨_, postFollow_insert_public db a b u hu hpub hno, rfl, rfl⟩
  have hu1 : selectUser db1 b = some u := by
    unfold selectUser at hu ⊢
    rw [husers]
    exact hu
  refine ⟨db1, deleteFollow db1 a b, h1, hfol, ?_, ?_, ?_⟩
  · exact isFollowing_of_mem db1 a b (by rw [hfol]; simp)
  · exact postFollow_toggle_off db1 a b u hu1
      (edgeExists_of_mem db1 a b .accepted (by rw [hfol]; simp))
  · exact isFollowing_deleteFollow db1 a b

/-- `edgeExists db a b = false` says no row carries the pair `(a, b)`. -/
theorem edgeExists_eq_false_iff (db : DB) (a b : Nat) :
    edgeExists db a b = false ↔
      ∀ f ∈ db.follows, ¬(f.follower_id = a ∧ f.following_id = b) := by
  simp [edgeExists, List.any_eq_false, decide_eq_true_eq]

/-- After `deleteFollow db a b` no `(a, b)` row survives at all. -/
theorem edgeExists_deleteFollow (db : DB) (a b : Nat) :
    edgeExists (deleteFollow db a b) a b = false := by
  rw [edgeExists_eq_false_iff]
  intro f hf
  unfold deleteFollow at hf
  rw [List.mem_filter] at hf
  simp only [Bool.not_eq_eq_eq_not, Bool.not_true, decide_eq_false_iff_not] at hf
  exact hf.2

/-- C7. For accounts `a ≠ b`, `b` private, with no existing `(a, b)` edge:
follow-toggle creates a `pending` edge and answers `pending`;
`IsFollowing(a,b)` stays false while the edge is pending and becomes true
after `RespondToRequest(a, b, accept)`. -/
theorem follow_toggle_private (db : DB) (a b : Nat) (u : UserRow)
    (hab : a ≠ b)
    (hu : selectUser db b = some u) (hpriv : u.is_private = true)
    (hno : edgeExists db a b = false) :
    ∃ db1 : DB,
      postFollow db a b = some (db1, .pending) ∧
      db1.follows = db.follows ++ [⟨a, b, .pending⟩] ∧
      isFollowing db1 a b = false ∧
      isFollowing (postRespond db1 a b .accept) a b = true := by
  obtain ⟨db1, h1, hfol⟩ :
      ∃ db1, postFollow db a b = some (db1, FollowResp.pending) ∧
        db1.follows = db.follows ++ [⟨a, b, FStatus.pending⟩] :=
    ⟨_, postFollow_insert_private db a b u hu hpriv hno, rfl⟩
  refine ⟨db1, h1, hfol, ?_, ?_⟩
  · simp only [isFollowing, List.any_eq_false, decide_eq_true_eq]
    intro f hf
    rw [hfol, List.mem_append] at hf
    rcases hf with hf | hf
    · have := (edgeExists_eq_false_iff db a b).mp hno f hf
      intro hc
      exact this ⟨hc.1, hc.2.1⟩
    · simp only [List.mem_singleton] at hf
      subst hf
      intro hc
      exact FStatus.noConfusion hc.2.2
  · apply isFollowing_of_mem
    have hmem : FollowRow.mk a b FStatus.pending ∈ db1.follows := by
      rw [hfol]; simp
    show FollowRow.mk a b FStatus.accepted ∈ (postRespond db1 a b .accept).follows
    simp only [postRespond, insertNotification]
    refine List.mem_map.mpr ⟨⟨a, b, FStatus.pending⟩, hmem, ?_⟩
    simp

/-- C6 (amended). The follow-toggle notifies the followee (actor = follower)
with kind `follow` on an `accepted` transition and `follow_request` on a
`pending` one, and adds no notification on `unfollowed`; the respond route
notifies the follower (actor = followee, kind `follow`) on every `accept`
and adds no notification on `reject`. -/
theorem follow_notification_fanout (db : DB) (a b : Nat) (u : UserRow)
    (hu : selectUser db b = some u) :
    (postFollow db a b).map (fun p => (p.1.notifications, p.2)) =
      some (if edgeExists db a b then (db.notifications, FollowResp.unfollowed)
            else if u.is_private then
              (db.notifications ++ [⟨b, a, NKind.follow_request, none, false, db.clock⟩],
               FollowResp.pending)
            else
              (db.notifications ++ [⟨b, a, NKind.follow, none, false, db.clock⟩],
               FollowResp.accepted)) ∧
    (postRespond db a b .accept).notifications =
      db.notifications ++ [⟨a, b, NKind.follow, none, false, db.clock⟩] ∧
    (postRespond db a b .reject).notifications = db.notifications := by
  refine ⟨?_, rfl, rfl⟩
  by_cases he : edgeExists db a b = true
  · rw [postFollow_toggle_off db a b u hu he]
    simp [he, deleteFollow]
  · have he' : edgeExists db a b = false := by
      simpa using he
    by_cases hp : u.is_private = true
    · rw [postFollow_insert_private db a b u hu hp he']
      simp [he', hp]
    · have hp' : u.is_private = false := by
        simpa using hp
      rw [postFollow_insert_public db a b u hu hp']
      simp [he', hp']
      exact he'

/-- Two public accounts (1 and 2) over an otherwise empty store. -/
def dbPub : DB := ⟨[⟨1, false⟩, ⟨2, false⟩], [], [], [], [], [], 1, 0⟩

/-- Account 1 public, account 2 private, otherwise empty store. -/
def dbPriv : DB := ⟨[⟨1, false⟩, ⟨2, true⟩], [], [], [], [], [], 1, 0⟩

/-- Account 1 public, account 2 private, a pending edge 1 → 2. -/
def dbPend : DB := ⟨[⟨1, false⟩, ⟨2, true⟩], [], [⟨1, 2, .pending⟩], [], [], [], 1, 0⟩

/-- Witness for C1 at accounts 1 and 2 of `dbPub`. -/
theorem follow_toggle_public_witness :
    (1 : Nat) ≠ 2 ∧ selectUser dbPub 2 = some ⟨2, false⟩ ∧
    (UserRow.mk 2 false).is_private = false ∧ edgeExists dbPub 1 2 = false ∧
    ∃ db1 db2 : DB,
      postFollow dbPub 1 2 = some (db1, .accepted) ∧
      db1.follows = dbPub.follows ++ [⟨1, 2, .accepted⟩] ∧
      isFollowing db1 1 2 = true ∧
      postFollow db1 1 2 = some (db2, .unfollowed) ∧
      isFollowing db2 1 2 = false :=
  ⟨by decide, rfl, rfl, rfl,
   follow_toggle_public dbPub 1 2 ⟨2, false⟩ (by decide) rfl rfl rfl⟩

/-- Witness for C7 at accounts 1 and 2 of `dbPriv`. -/
theorem follow_toggle_private_witness :
    (1 : Nat) ≠ 2 ∧ selectUser dbPriv 2 = some ⟨2, true⟩ ∧
    (UserRow.mk 2 true).is_private = true ∧ edgeExists dbPriv 1 2 = false ∧
    ∃ db1 : DB,
      postFollow dbPriv 1 2 = some (db1, .pending) ∧
      db1.follows = dbPriv.follows ++ [⟨1, 2, .pending⟩] ∧
      isFollowing db1 1 2 = false ∧
      isFollowing (postRespond db1 1 2 .accept) 1 2 = true :=
  ⟨by decide, rfl, rfl, rfl,
   follow_toggle_private dbPriv 1 2 ⟨2, true⟩ (by decide) rfl rfl rfl⟩

/-- Witness for C6 (amended) at `dbPriv`. -/
theorem follow_notification_fanout_witness :
    selectUser dbPriv 2 = some ⟨2, true⟩ ∧
    ((postFollow dbPriv 1 2).map (fun p => (p.1.notifications, p.2)) =
      some (if edgeExists dbPriv 1 2 then (dbPriv.notifications, FollowResp.unfollowed)
            else if (UserRow.mk 2 true).is_private then
              (dbPriv.notifications ++
                [⟨2, 1, NKind.follow_request, none, false, dbPriv.clock⟩],
               FollowResp.pending)
            else
              (dbPriv.notifications ++ [⟨2, 1, NKind.follow, none, false, dbPriv.clock⟩],
               FollowResp.accepted))) :=
  ⟨rfl, (follow_notification_fanout dbPriv 1 2 ⟨2, true⟩ rfl).1⟩

/-- C6 counterexample: accepting the pending request 1 → 2 transitions the
edge to `accepted` yet the produced notification goes to the follower
(`user_id = 1`, actor 2), and no notification at all reaches the followee 2
— contradicting "actor = follower, recipient = followee". -/
theorem respond_accept_notifies_follower :
    (postRespond dbPend 1 2 .accept).follows = [⟨1, 2, FStatus.accepted⟩] ∧
    (postRespond dbPend 1 2 .accept).notifications =
      [⟨1, 2, NKind.follow, none, false, 0⟩] ∧
    (postRespond dbPend 1 2 .accept).notifications.filter
      (fun n => decide (n.user_id = 2)) = [] :=
  ⟨rfl, rfl, rfl⟩

/-- C8 (amended). `accept` turns every `(a, b)` row `accepted` (in
particular `pending → accepted`), but it also inserts one `follow`
notification to the follower (actor = followee) on every call; `reject`
deletes the `(a, b)` edge. -/
theorem respond_to_request_amended (db : DB) (a b : Nat)
    (hp : FollowRow.mk a b FStatus.pending ∈ db.follows) :
    FollowRow.mk a b FStatus.accepted ∈ (postRespond db a b .accept).follows ∧
    (∀ f ∈ (postRespond db a b .accept).follows,
        f.follower_id = a → f.following_id = b → f.status = FStatus.accepted) ∧
    (postRespond db a b .accept).notifications =
      db.notifications ++ [⟨a, b, NKind.follow, none, false, db.clock⟩] ∧
    edgeExists (postRespond db a b .reject) a b = false := by
  refine ⟨?_, ?_, rfl, ?_⟩
  · simp only [postRespond, insertNotification]
    refine List.mem_map.mpr ⟨⟨a, b, FStatus.pending⟩, hp, ?_⟩
    simp
  · intro f hf h1 h2
    simp only [postRespond, insertNotification] at hf
    rcases List.mem_map.mp hf with ⟨g, _, hfg⟩
    by_cases hg : g.follower_id = a ∧ g.following_id = b
    · rw [if_pos hg] at hfg
      rw [← hfg]
    · rw [if_neg hg] at hfg
      subst hfg
      exact absurd ⟨h1, h2⟩ hg
  · exact edgeExists_deleteFollow db a b

/-- Witness for C8 (amended) at `dbPend`. -/
theorem respond_to_request_amended_witness :
    FollowRow.mk 1 2 FStatus.pending ∈ dbPend.follows ∧
    FollowRow.mk 1 2 FStatus.accepted ∈ (postRespond dbPend 1 2 .accept).follows ∧
    edgeExists (postRespond dbPend 1 2 .reject) 1 2 = false :=
  ⟨by decide, (respond_to_request_amended dbPend 1 2 (by decide)).1,
   (respond_to_request_amended dbPend 1 2 (by decide)).2.2.2⟩

/-- C8 counterexample: with no `(1, 2)` edge at all, `accept` is not a
no-op — the follows table is untouched but a `follow` notification to the
follower is still inserted. -/
theorem respond_accept_absent_edge_notifies :
    edgeExists dbPub 1 2 = false ∧
    (postRespond dbPub 1 2 .accept).follows = dbPub.follows ∧
    (postRespond dbPub 1 2 .accept).notifications =
      [⟨1, 2, NKind.follow, none, false, 0⟩] :=
  ⟨rfl, rfl, rfl⟩

/-- One public account and an otherwise empty store. -/
def dbSelf : DB := ⟨[⟨1, false⟩], [], [], [], [], [], 1, 0⟩

/-- C4 failing input: `POST /api/follow` with `follower_id = following_id
= 1`.  The code performs no self-follow validation: it creates the edge
`(1, 1)` with status `accepted`, inserts a `follow` notification whose
recipient and actor are both 1, and answers `accepted`. -/
theorem self_follow_not_rejected :
    (postFollow dbSelf 1 1).map (fun p => (p.1.follows, p.1.notifications, p.2)) =
      some ([⟨1, 1, FStatus.accepted⟩], [⟨1, 1, NKind.follow, none, false, 0⟩],
        FollowResp.accepted) ∧
    (postFollow dbSelf 1 1).map (fun p => isFollowing p.1 1 1) = some true :=
  ⟨rfl, rfl⟩

/-- One public account (2) owning post 7, otherwise empty store. -/
def dbSelfNine : DB := ⟨[⟨2, false⟩], [⟨7, 2⟩], [], [], [], [], 1, 0⟩

/-- C9 failing input: a `follow` event whose actor equals the recipient
(self-follow on account 2) increases 2's notification count by one, while
the like path — which does guard `post.user_id !== user_id` — leaves the
count unchanged when the actor owns the post. -/
theorem follow_event_notifies_self :
    (postFollow dbSelfNine 2 2).map (fun p => notifCount p.1 2) =
      some (notifCount dbSelfNine 2 + 1) ∧
    (postFollow dbSelfNine 2 2).map
        (fun p => p.1.notifications.filter (fun n => decide (n.actor_id = 2))) =
      some [⟨2, 2, NKind.follow, none, false, 0⟩] ∧
    notifCount (postLike dbSelfNine 7 2).1 2 = notifCount dbSelfNine 2 :=
  ⟨rfl, rfl, rfl⟩

/-- An opaque transport handle (`socket.id`). -/
abbrev SocketId := Nat

/-- A pushed socket event: `io.emit("user_status", ...)` (broadcast),
`io.to(sid).emit("new_message", ...)`, or `socket.emit("message_sent", ...)`
aimed at one socket. -/
inductive Event where
  | user_status (userId : Nat) (online : Bool)
  | new_message (toSocket : SocketId) (msg : MessageRow)
  | message_sent (toSocket : SocketId) (msg : MessageRow)
deriving DecidableEq, Repr

/-- The `onlineUsers` JS `Map` as an insertion-ordered association list.
`Map.set` overwrites the value of an existing key in place, else appends. -/
def mapSet (m : List (Nat × SocketId)) (k : Nat) (v : SocketId) :
    List (Nat × SocketId) :=
  if m.any (fun e => decide (e.1 = k)) then
    m.map (fun e => if e.1 = k then (k, v) else e)
  else m ++ [(k, v)]

/-- `Map.get`: the value stored under the key, if any. -/
def mapGet : List (Nat × SocketId) → Nat → Option SocketId
  | [], _ => none
  | e :: m, k => if e.1 = k then some e.2 else mapGet m k

/-- `socket.on("join")`: `onlineUsers.set(userId, socket.id)` and broadcast
`user_status` online. -/
def onJoin (online : List (Nat × SocketId)) (userId : Nat)
    (socketId : SocketId) : List (Nat × SocketId) × List Event :=
  (mapSet online userId socketId, [.user_status userId true])

/-- `socket.on("disconnect")`: iterate `onlineUsers` in insertion order,
delete the first entry whose socket id matches, broadcast `user_status`
offline for its account, and `break`. -/
def onDisconnect (online : List (Nat × SocketId)) (socketId : SocketId) :
    List (Nat × SocketId) × List Event :=
  match online with
  | [] => ([], [])
  | e :: rest =>
    if e.2 = socketId then (rest, [.user_status e.1 false])
    else
      let r := onDisconnect rest socketId
      (e :: r.1, r.2)

/-- `socket.on("send_message")` (`src/server.ts` lines 442–452): insert the
message row, rebuild the message object from `lastInsertRowid`, push
`new_message` to the receiver's socket when `onlineUsers` has one, and
always push `message_sent` back to the sending socket. -/
def onSendMessage (db : DB) (online : List (Nat × SocketId))
    (senderSocket : SocketId) (sender_id receiver_id : Nat)
    (content : String) : DB × List Event :=
  let msg : MessageRow := ⟨db.nextMessageId, sender_id, receiver_id, content⟩
  let db1 : DB :=
    { db with messages := db.messages ++ [msg], nextMessageId := db.nextMessageId + 1 }
  let pushes : List Event :=
    match mapGet online receiver_id with
    | some rsid => [.new_message rsid msg]
    | none => []
  (db1, pushes ++ [.message_sent senderSocket msg])

/-- Recognizer for `new_message` events. -/
def Event.isNewMessage : Event → Bool
  | .new_message _ _ => true
  | _ => false

/-- Recognizer for `message_sent` events. -/
def Event.isMessageSent : Event → Bool
  | .message_sent _ _ => true
  | _ => false

/-- C2. Every `send_message` persists exactly one row; when the receiver has
a registered socket exactly one `new_message` is pushed to it, else none;
exactly one `message_sent` always goes back to the sending socket; all of
them carry the same id (`lastInsertRowid`) and content. -/
theorem send_message_delivery (db : DB) (online : List (Nat × SocketId))
    (senderSocket : SocketId) (s r : Nat) (c : String) :
    (onSendMessage db online senderSocket s r c).1.messages =
      db.messages ++ [⟨db.nextMessageId, s, r, c⟩] ∧
    (onSendMessage db online senderSocket s r c).2.filter Event.isNewMessage =
      (match mapGet online r with
        | some h => [Event.new_message h ⟨db.nextMessageId, s, r, c⟩]
        | none => []) ∧
    (onSendMessage db online senderSocket s r c).2.filter Event.isMessageSent =
      [Event.message_sent senderSocket ⟨db.nextMessageId, s, r, c⟩] := by
  refine ⟨rfl, ?_, ?_⟩ <;>
    cases hg : mapGet online r <;>
      simp [onSendMessage, hg, Event.isNewMessage, Event.isMessageSent]

/-- C5 failing input: `send_message` with empty content.  The handler has no
validation: the empty-content row is persisted and `message_sent` is still
echoed to the sender. -/
theorem empty_message_not_rejected :
    (onSendMessage dbPub [] 100 1 2 "").1.messages = [⟨1, 1, 2, ""⟩] ∧
    (onSendMessage dbPub [] 100 1 2 "").2 = [.message_sent 100 ⟨1, 1, 2, ""⟩] :=
  ⟨rfl, rfl⟩

/-- Setting a key makes `Map.get` return the new value. -/
theorem mapGet_mapSet_self (m : List (Nat × SocketId)) (k : Nat)
    (v : SocketId) : mapGet (mapSet m k v) k = some v := by
  unfold mapSet
  by_cases h : m.any (fun e => decide (e.1 = k)) = true
  · rw [if_pos h]
    induction m with
    | nil => simp at h
    | cons e rest ih =>
      by_cases he : e.1 = k
      · simp [mapGet, he]
      · simp only [List.any_cons, Bool.or_eq_true, decide_eq_true_eq] at h
        rcases h with h | h
        · exact absurd h he
        · simp only [List.map_cons, if_neg he, mapGet, he, if_false]
          exact ih h
  · rw [if_neg h]
    rw [Bool.not_eq_true, List.any_eq_false] at h
    induction m with
    | nil => simp [mapGet]
    | cons e rest ih =>
      have hek : ¬(e.1 = k) := by
        have := h e (List.mem_cons_self e rest)
        simpa using this
      simp only [List.cons_append, mapGet, if_neg hek]
      exact ih (fun x hx => h x (List.mem_cons_of_mem e hx))

/-- Every entry of `mapSet m k v` under the key `k` holds the value `v`. -/
theorem mapSet_entry_val (m : List (Nat × SocketId)) (k : Nat) (v : SocketId) :
    ∀ e ∈ mapSet m k v, e.1 = k → e.2 = v := by
  intro e he hk
  unfold mapSet at he
  by_cases h : m.any (fun x => decide (x.1 = k)) = true
  · rw [if_pos h] at he
    rcases List.mem_map.mp he with ⟨g, _, hg⟩
    by_cases hgk : g.1 = k
    · rw [if_pos hgk] at hg
      rw [← hg]
    · rw [if_neg hgk] at hg
      subst hg
      exact absurd hk hgk
  · rw [if_neg h] at he
    rw [Bool.not_eq_true, List.any_eq_false] at h
    rcases List.mem_append.mp he with he | he
    · have := h e he
      simp only [decide_eq_true_eq] at this
      exact absurd hk this
    · simp only [List.mem_singleton] at he
      subst he
      rfl

/-- Every entry of `mapSet m k v` is the new pair or an old non-`k` entry. -/
theorem mapSet_entry_src (m : List (Nat × SocketId)) (k : Nat) (v : SocketId) :
    ∀ e ∈ mapSet m k v, e = (k, v) ∨ (e ∈ m ∧ e.1 ≠ k) := by
  intro e he
  unfold mapSet at he
  by_cases h : m.any (fun x => decide (x.1 = k)) = true
  · rw [if_pos h] at he
    rcases List.mem_map.mp he with ⟨g, hgm, hg⟩
    by_cases hgk : g.1 = k
    · rw [if_pos hgk] at hg
      exact Or.inl hg.symm
    · rw [if_neg hgk] at hg
      subst hg
      exact Or.inr ⟨hgm, hgk⟩
  · rw [if_neg h] at he
    rw [Bool.not_eq_true, List.any_eq_false] at h
    rcases List.mem_append.mp he with he | he
    · have := h e he
      simp only [decide_eq_true_eq] at this
      exact Or.inr ⟨he, this⟩
    · simp only [List.mem_singleton] at he
      exact Or.inl he

/-- `mapSet` preserves key-uniqueness of the registry. -/
theorem mapSet_keys_nodup (m : List (Nat × SocketId)) (k : Nat) (v : SocketId)
    (h : (m.map Prod.fst).Nodup) : ((mapSet m k v).map Prod.fst).Nodup := by
  unfold mapSet
  by_cases ha : m.any (fun e => decide (e.1 = k)) = true
  · rw [if_pos ha]
    have : (m.map (fun e => if e.1 = k then (k, v) else e)).map Prod.fst
        = m.map Prod.fst := by
      rw [List.map_map]
      apply List.map_congr_left
      intro e _
      by_cases hek : e.1 = k
      · simp [hek]
      · simp [hek]
    rw [this]
    exact h
  · rw [if_neg ha]
    rw [Bool.not_eq_true, List.any_eq_false] at ha
    rw [List.map_append, List.nodup_append]
    refine ⟨h, List.nodup_singleton k, ?_⟩
    intro x hx hk
    simp only [List.map_cons, List.map_nil, List.mem_singleton] at hk
    subst hk
    rcases List.mem_map.mp hx with ⟨e, hem, hek⟩
    have := ha e hem
    simp only [decide_eq_true_eq] at this
    exact this hek

/-- A key absent from the registry looks up to `none`. -/
theorem mapGet_eq_none_of_not_mem (m : List (Nat × SocketId)) (a : Nat)
    (h : a ∉ m.map Prod.fst) : mapGet m a = none := by
  induction m with
  | nil => rfl
  | cons e rest ih =>
    simp only [List.map_cons, List.mem_cons] at h
    push_neg at h
    have hea : ¬(e.1 = a) := fun hc => h.1 hc.symm
    simp only [mapGet, if_neg hea]
    exact ih h.2

/-- A successful lookup exhibits the entry. -/
theorem mem_of_mapGet_eq_some (m : List (Nat × SocketId)) (a : Nat)
    (v : SocketId) (h : mapGet m a = some v) : (a, v) ∈ m := by
  induction m with
  | nil => exact absurd h (by simp [mapGet])
  | cons e rest ih =>
    by_cases hek : e.1 = a
    · simp only [mapGet, if_pos hek] at h
      have : e = (a, v) := by
        rcases e with ⟨e1, e2⟩
        simp only at hek
        simp only [Option.some.injEq] at h
        simp [hek, h]
      rw [← this]
      exact List.mem_cons_self e rest
    · simp only [mapGet, if_neg hek] at h
      exact List.mem_cons_of_mem e (ih h)

/-- Disconnecting a socket that no entry of the account `a` holds leaves
`a`'s lookup unchanged. -/
theorem mapGet_onDisconnect_other (m : List (Nat × SocketId))
    (sid : SocketId) (a : Nat) (h : ∀ e ∈ m, e.1 = a → e.2 ≠ sid) :
    mapGet (onDisconnect m sid).1 a = mapGet m a := by
  induction m with
  | nil => rfl
  | cons e rest ih =>
    by_cases hes : e.2 = sid
    · simp only [onDisconnect, if_pos hes]
      have hea : ¬(e.1 = a) := fun hc => h e (List.mem_cons_self e rest) hc hes
      simp [mapGet, if_neg hea]
    · simp only [onDisconnect, if_neg hes, mapGet]
      by_cases hea : e.1 = a
      · simp [hea]
      · simp only [if_neg hea]
        exact ih (fun x hx => h x (List.mem_cons_of_mem e hx))

/-- Disconnecting the unique socket of the unique entry for account `a`
removes `a` from the registry and broadcasts offline for `a`. -/
theorem onDisconnect_removes (m : List (Nat × SocketId)) (sid : SocketId)
    (a : Nat) (hmem : (a, sid) ∈ m)
    (hall : ∀ e ∈ m, e.2 = sid → e.1 = a)
    (hkeys : (m.map Prod.fst).Nodup) :
    mapGet (onDisconnect m sid).1 a = none ∧
    (onDisconnect m sid).2 = [Event.user_status a false] := by
  induction m with
  | nil => exact absurd hmem (List.not_mem_nil _)
  | cons e rest ih =>
    simp only [List.map_cons, List.nodup_cons] at hkeys
    by_cases hes : e.2 = sid
    · have hea : e.1 = a := hall e (List.mem_cons_self e rest) hes
      simp only [onDisconnect, if_pos hes]
      constructor
      · apply mapGet_eq_none_of_not_mem
        rw [← hea]
        exact hkeys.1
      · rw [hea]
    · have hne : e ≠ (a, sid) := fun hc => hes (by rw [hc])
      have hmem' : (a, sid) ∈ rest := by
        rcases List.mem_cons.mp hmem with hc | hc
        · exact absurd hc.symm hne
        · exact hc
      have hea : ¬(e.1 = a) := by
        intro hc
        apply hkeys.1
        rw [hc]
        exact List.mem_map.mpr ⟨(a, sid), hmem', rfl⟩
      have hres := ih hmem' (fun x hx => hall x (List.mem_cons_of_mem e hx)) hkeys.2
      simp only [onDisconnect, if_neg hes]
      refine ⟨?_, hres.2⟩
      simp only [mapGet, if_neg hea]
      exact hres.1

/-- C3. After `Register(a, h1)` then `Register(a, h2)` (distinct handles,
fresh `h2`, key-unique registry), `Lookup(a) = h2`; `Unregister(h1)` leaves
`a`'s entry alone; `Unregister(h2)` removes it and broadcasts `user_status`
offline for `a`. -/
theorem presence_registry_lifecycle (online : List (Nat × SocketId))
    (a : Nat) (h1 h2 : SocketId)
    (hne : h1 ≠ h2)
    (hkeys : (online.map Prod.fst).Nodup)
    (hfresh : ∀ e ∈ online, e.2 ≠ h2) :
    mapGet (onJoin (onJoin online a h1).1 a h2).1 a = some h2 ∧
    mapGet (onDisconnect (onJoin (onJoin online a h1).1 a h2).1 h1).1 a = some h2 ∧
    mapGet (onDisconnect (onJoin (onJoin online a h1).1 a h2).1 h2).1 a = none ∧
    (onDisconnect (onJoin (onJoin online a h1).1 a h2).1 h2).2 =
      [Event.user_status a false] := by
  have hget : mapGet (onJoin (onJoin online a h1).1 a h2).1 a = some h2 :=
    mapGet_mapSet_self _ a h2
  have hval : ∀ e ∈ (onJoin (onJoin online a h1).1 a h2).1, e.1 = a → e.2 = h2 :=
    mapSet_entry_val _ a h2
  have hsrc := mapSet_entry_src (mapSet online a h1) a h2
  have hkeys2 : (((onJoin (onJoin online a h1).1 a h2).1).map Prod.fst).Nodup :=
    mapSet_keys_nodup _ a h2 (mapSet_keys_nodup _ a h1 hkeys)
  refine ⟨hget, ?_, ?_, ?_⟩
  · rw [mapGet_onDisconnect_other _ h1 a
      (fun e he hea => by rw [hval e he hea]; exact fun hc => hne hc.symm)]
    exact hget
  · exact (onDisconnect_removes _ h2 a (mem_of_mapGet_eq_some _ a h2 hget)
      (fun e he hes => by
        rcases hsrc e he with hc | hc
        · rw [hc]
        · exfalso
          rcases mapSet_entry_src online a h1 e hc.1 with hd | hd
          · rw [hd] at hes
            exact hne hes
          · exact hfresh e hd.1 hes)
      hkeys2).1
  · exact (onDisconnect_removes _ h2 a (mem_of_mapGet_eq_some _ a h2 hget)
      (fun e he hes => by
        rcases hsrc e he with hc | hc
        · rw [hc]
        · exfalso
          rcases mapSet_entry_src online a h1 e hc.1 with hd | hd
          · rw [hd] at hes
            exact hne hes
          · exact hfresh e hd.1 hes)
      hkeys2).2

/-- Witness for C3 starting from the empty registry. -/
theorem presence_registry_lifecycle_witness :
    (10 : SocketId) ≠ 20 ∧
    mapGet (onJoin (onJoin [] 1 10).1 1 20).1 1 = some 20 ∧
    mapGet (onDisconnect (onJoin (onJoin [] 1 10).1 1 20).1 10).1 1 = some 20 ∧
    mapGet (onDisconnect (onJoin (onJoin [] 1 10).1 1 20).1 20).1 1 = none ∧
    (onDisconnect (onJoin (onJoin [] 1 10).1 1 20).1 20).2 =
      [Event.user_status 1 false] := by
  have h := presence_registry_lifecycle [] 1 10 20 (by decide) (by decide)
    (by intro e he; exact absurd he (List.not_mem_nil e))
  exact ⟨by decide, h.1, h.2.1, h.2.2.1, h.2.2.2⟩

/-- `ORDER BY created_at DESC`: newer-or-equal-first comparison. -/
def notifGE (x y : NotifRow) : Prop := y.created_at ≤ x.created_at

instance : DecidableRel notifGE := fun x y => Nat.decLe y.created_at x.created_at

instance : IsTotal NotifRow notifGE := ⟨fun x y => Nat.le_total y.created_at x.created_at⟩

instance : IsTrans NotifRow notifGE := ⟨fun _ _ _ hxy hyz => Nat.le_trans hyz hxy⟩

/-- `GET /api/notifications/:userId` (`src/server.ts` lines 336–346):
`WHERE n.user_id = ? ORDER BY n.created_at DESC LIMIT 50`; no filter on
`is_read`. -/
def getNotifications (db : DB) (userId : Nat) : List NotifRow :=
  (List.insertionSort notifGE
    (db.notifications.filter (fun n => decide (n.user_id = userId)))).take 50

/-- C10. The listing returns at most 50 rows, newest first, all owned by the
requested account; any of the account's rows left out — read or unread — is
no newer than every returned row. -/
theorem notifications_listing (db : DB) (userId : Nat) :
    (getNotifications db userId).length ≤ 50 ∧
    List.Sorted notifGE (getNotifications db userId) ∧
    (∀ n ∈ getNotifications db userId, n.user_id = userId ∧ n ∈ db.notifications) ∧
    (∀ n ∈ db.notifications, n.user_id = userId →
      n ∉ getNotifications db userId →
      ∀ m ∈ getNotifications db userId, n.created_at ≤ m.created_at) := by
  refine ⟨?_, ?_, ?_, ?_⟩
  · unfold getNotifications
    rw [List.length_take]
    exact Nat.min_le_left _ _
  · exact List.Pairwise.sublist (List.take_sublist _ _)
      (List.sorted_insertionSort notifGE _)
  · intro n hn
    have h1 : n ∈ List.insertionSort notifGE
        (db.notifications.filter (fun x => decide (x.user_id = userId))) :=
      (List.take_sublist _ _).subset hn
    have h2 : n ∈ db.notifications.filter (fun x => decide (x.user_id = userId)) :=
      (List.perm_insertionSort notifGE _).subset h1
    rw [List.mem_filter] at h2
    exact ⟨by simpa using h2.2, h2.1⟩
  · intro n hn hu hnot m hm
    have hnf : n ∈ db.notifications.filter (fun x => decide (x.user_id = userId)) :=
      List.mem_filter.mpr ⟨hn, by simpa using hu⟩
    have hns : n ∈ List.insertionSort notifGE
        (db.notifications.filter (fun x => decide (x.user_id = userId))) :=
      ((List.perm_insertionSort notifGE _).mem_iff).mpr hnf
    set l := List.insertionSort notifGE
      (db.notifications.filter (fun x => decide (x.user_id = userId))) with hl
    have hsplit : l = l.take 50 ++ l.drop 50 := (List.take_append_drop 50 l).symm
    have hnd : n ∈ l.drop 50 := by
      rcases List.mem_append.mp (hsplit ▸ hns) with hc | hc
      · exact absurd hc hnot
      · exact hc
    have hsorted : List.Pairwise notifGE (l.take 50 ++ l.drop 50) := by
      rw [← hsplit]
      exact List.sorted_insertionSort notifGE _
    exact (List.pairwise_append.mp hsorted).2.2 m hm n hnd

/-- 51 notifications for account 1 (actor 2) with decreasing timestamps
50, 49, …, 0. -/
def rowsMany : List NotifRow :=
  (List.range 51).map (fun i => ⟨1, 2, NKind.like, none, false, 50 - i⟩)

/-- A store whose notification table holds the 51 rows of `rowsMany`. -/
def dbMany : DB := ⟨[⟨1, false⟩, ⟨2, false⟩], [], [], [], [], rowsMany, 1, 51⟩

/-- Witness for C10: the oldest (unread) of 51 rows is owned by account 1,
is dropped by the 50-row page, and is no newer than anything returned. -/
theorem notifications_listing_witness :
    NotifRow.mk 1 2 NKind.like none false 0 ∈ dbMany.notifications ∧
    (NotifRow.mk 1 2 NKind.like none false 0).user_id = 1 ∧
    NotifRow.mk 1 2 NKind.like none false 0 ∉ getNotifications dbMany 1 ∧
    ∀ m ∈ getNotifications dbMany 1,
      (NotifRow.mk 1 2 NKind.like none false 0).created_at ≤ m.created_at :=
  ⟨by decide, rfl, by decide,
   (notifications_listing dbMany 1).2.2.2 ⟨1, 2, NKind.like, none, false, 0⟩
     (by decide) rfl (by decide)⟩

end Pixelgram
